import Mathlib

/-!
Verification of the intent/performer dispatch layer of `admin/aws.py`
(flocker's effectful interface to boto).

The Python module is embedded shallowly:

* Python dicts become association lists (`alLookup`, `alUpdate`, `alErase`
  model `d[k]`, `d[k] = v`, `del d[k]`; a failed lookup models `KeyError`);
* byte strings become `List Nat`;
* the local filesystem (twisted `FilePath`) becomes an explicit list of
  entries (regular files with content, or directories);
* each performer becomes a state-passing function returning the Python
  result (or the raised error) together with the final state — the state is
  returned even on error, because Python exceptions do not roll back the
  mutations already made;
* the two `TypeDispatcher` tables become association lists from the intent's
  runtime type (`Tag`) to the registered performer function (`PerformerId`),
  and `dispatchFake` interprets a table against the in-memory `FakeAWS`
  model, with a fuel argument standing for Python's recursion limit
  (composite performers re-enter the dispatcher, so a cyclic table would
  recurse; the source only ever dispatches primitive sub-intents).

Note on names: every source field spelled `...prefix` is embedded under the
abbreviation `...pfx` (`target_prefix` becomes `target_pfx`, `intent.prefix`
becomes the `pfx` argument, and so on).
-/

/-! ## Association lists modelling Python dicts -/

/-- `d[k]` as a total function: `none` models a raised `KeyError`. -/
def alLookup {α β : Type} [DecidableEq α] : List (α × β) → α → Option β
  | [], _ => none
  | (k, v) :: rest, k' => if k = k' then some v else alLookup rest k'

/-- `d[k] = v`: replace the first binding of `k`, else append a new one
(Python dicts hold at most one binding per key). -/
def alUpdate {α β : Type} [DecidableEq α] : List (α × β) → α → β → List (α × β)
  | [], k, v => [(k, v)]
  | (k', v') :: rest, k, v =>
      if k' = k then (k, v) :: rest else (k', v') :: alUpdate rest k v

/-- `del d[k]`: remove the first binding of `k` (the caller checks presence,
mirroring the `KeyError` Python raises when it is absent). -/
def alErase {α β : Type} [DecidableEq α] : List (α × β) → α → List (α × β)
  | [], _ => []
  | (k', v') :: rest, k =>
      if k' = k then rest else (k', v') :: alErase rest k

/-- A Python set built from a list of elements: duplicates collapsed. -/
def pyDedup {α : Type} [DecidableEq α] : List α → List α
  | [] => []
  | x :: xs => if x ∈ pyDedup xs then pyDedup xs else x :: pyDedup xs

theorem mem_pyDedup {α : Type} [DecidableEq α] {x : α} :
    ∀ {l : List α}, x ∈ pyDedup l ↔ x ∈ l := by
  intro l
  induction l with
  | nil => simp [pyDedup]
  | cons y ys ih =>
      by_cases hy : y ∈ pyDedup ys
      · simp only [pyDedup, if_pos hy, List.mem_cons]
        constructor
        · intro h; exact Or.inr (ih.mp h)
        · rintro (rfl | h)
          · exact hy
          · exact ih.mpr h
      · simp only [pyDedup, if_neg hy, List.mem_cons, ih]

theorem nodup_pyDedup {α : Type} [DecidableEq α] :
    ∀ (l : List α), (pyDedup l).Nodup := by
  intro l
  induction l with
  | nil => simp [pyDedup]
  | cons y ys ih =>
      by_cases hy : y ∈ pyDedup ys
      · simpa [pyDedup, if_pos hy] using ih
      · simpa [pyDedup, if_neg hy] using ⟨hy, ih⟩

/-! ## String operations

Python's str operations act per character; they are embedded over
`String.data` with structurally recursive functions (the core library's
`startsWith`, `drop`, `splitOn`, ... are defined by well-founded recursion
over byte positions and do not reduce definitionally, which would make
concrete dispatches impossible to evaluate inside proofs). -/

/-- Python `s.startswith(p)`. -/
def strStartsWith (s p : String) : Bool :=
  p.data.isPrefixOf s.data

/-- Python `s.endswith(p)`. -/
def strEndsWith (s p : String) : Bool :=
  p.data.isSuffixOf s.data

/-- Python `s[n:]`. -/
def strDrop (s : String) (n : Nat) : String :=
  String.mk (s.data.drop n)

/-- Python `len(s)`. -/
def strLen (s : String) : Nat :=
  s.data.length

/-- Python `s.split("/")` over the character list. -/
def splitSlashChars : List Char → List (List Char)
  | [] => [[]]
  | c :: cs =>
      if c = '/' then [] :: splitSlashChars cs
      else
        match splitSlashChars cs with
        | [] => [[c]]
        | g :: gs => (c :: g) :: gs

/-- Python `s.split("/")`. -/
def splitSlash (s : String) : List String :=
  (splitSlashChars s.data).map String.mk

/-- Python `"/".join(parts)`. -/
def joinSlash : List String → String
  | [] => ""
  | [x] => x
  | x :: xs => x ++ "/" ++ joinSlash xs

/-! ## Bytes and the local filesystem (twisted FilePath) -/

/-- Byte-string content of a file or S3 object. -/
abbrev Bytes := List Nat

/-- A filesystem entry: a regular file with its content, or a directory. -/
inductive FSKind : Type
  | file (content : Bytes)
  | dir
deriving DecidableEq

structure FSEntry : Type where
  path : String
  kind : FSKind
deriving DecidableEq

/-- The local filesystem: a flat list of entries keyed by full path. -/
structure FS : Type where
  entries : List FSEntry
deriving DecidableEq

/-- `FilePath.isfile()`. -/
def FSEntry.isFile : FSEntry → Bool
  | ⟨_, .file _⟩ => true
  | ⟨_, .dir⟩ => false

/-- Content of a file entry (directories carry no content). -/
def FSEntry.contentD : FSEntry → Bytes
  | ⟨_, .file c⟩ => c
  | ⟨_, .dir⟩ => []

/-- `open(p).read()`: the content of the regular file at `p`, `none` when
`p` is absent or a directory (Python raises `IOError`). -/
def FS.readFile (fs : FS) (p : String) : Option Bytes :=
  match fs.entries.find? (fun e => e.path == p) with
  | some ⟨_, .file c⟩ => some c
  | _ => none

def fsSet : List FSEntry → String → Bytes → List FSEntry
  | [], p, c => [⟨p, .file c⟩]
  | e :: rest, p, c =>
      if e.path = p then ⟨p, .file c⟩ :: rest else e :: fsSet rest p c

/-- `FilePath.setContent(c)`: (over)write the file at `p`. -/
def FS.setContent (fs : FS) (p : String) (c : Bytes) : FS :=
  ⟨fsSet fs.entries p c⟩

/-- `FilePath.exists()`. -/
def FS.pathExists (fs : FS) (p : String) : Bool :=
  fs.entries.any (fun e => e.path == p)

/-- `FilePath.parent()`: the path up to the last slash. -/
def parentPath (p : String) : String :=
  joinSlash (splitSlash p).dropLast

/-- `FilePath.basename()`: the component after the last slash. -/
def basename (p : String) : String :=
  (splitSlash p).getLastD ""

/-- The chain of paths `FilePath.makedirs()` creates on the way to `p`:
every proper slash-delimited ancestor of `p`, then `p` itself. -/
def ancestorPaths (p : String) : List String :=
  let parts := splitSlash p
  ((List.range (parts.length - 1)).map
    (fun i => joinSlash (parts.take (i + 1)))) ++ [p]

/-- `FilePath.makedirs()`: create the directory `p` and every missing
ancestor. -/
def FS.makedirs (fs : FS) (p : String) : FS :=
  ⟨fs.entries ++ (ancestorPaths p).filterMap
      (fun q => if fs.pathExists q then none else some ⟨q, .dir⟩)⟩

/-- `FilePath.walk()`: every entry whose path lies under `root` (the search
order of the embedding is the entry order of the model). -/
def FS.walk (fs : FS) (root : String) : List FSEntry :=
  fs.entries.filter (fun e => strStartsWith e.path root)

/-- `os.path.join(a, b)` for the two-argument POSIX case. -/
def osPathJoin (a b : String) : String :=
  if strStartsWith b "/" then b
  else if a = "" then b
  else if strEndsWith a "/" then a ++ b
  else a ++ "/" ++ b

/-! ## Intents -/

/-- The nine intent classes of `admin/aws.py`, as one closed sum.  Field
names follow the source (with `prefix` spelled `pfx`, see the header). -/
inductive Intent : Type
  | updateS3RoutingRule (bucket pfx target_pfx : String)
  | createCloudFrontInvalidation (cname : String) (paths : List String)
  | deleteS3Keys (bucket pfx : String) (keys : List String)
  | copyS3Keys (source_bucket source_pfx destination_bucket destination_pfx :
      String) (keys : List String)
  | listS3Keys (bucket pfx : String)
  | downloadS3Key (source_bucket source_key target_path : String)
  | downloadS3KeyRecursively (source_bucket source_pfx target_path : String)
      (filter_extensions : List String)
  | uploadToS3 (source_path target_bucket target_key file : String)
  | uploadToS3Recursively (source_path target_bucket target_key : String)
      (files : List String)
deriving DecidableEq

/-- The runtime type of an intent: the key of a `TypeDispatcher` table. -/
inductive Tag : Type
  | updateS3RoutingRule
  | createCloudFrontInvalidation
  | deleteS3Keys
  | copyS3Keys
  | listS3Keys
  | downloadS3Key
  | downloadS3KeyRecursively
  | uploadToS3
  | uploadToS3Recursively
deriving DecidableEq

def Intent.tag : Intent → Tag
  | .updateS3RoutingRule .. => .updateS3RoutingRule
  | .createCloudFrontInvalidation .. => .createCloudFrontInvalidation
  | .deleteS3Keys .. => .deleteS3Keys
  | .copyS3Keys .. => .copyS3Keys
  | .listS3Keys .. => .listS3Keys
  | .downloadS3Key .. => .downloadS3Key
  | .downloadS3KeyRecursively .. => .downloadS3KeyRecursively
  | .uploadToS3 .. => .uploadToS3
  | .uploadToS3Recursively .. => .uploadToS3Recursively

/-- The value a performer returns to the caller of `dispatch`. -/
inductive Result : Type
  | pyNone
  | pyStr (s : String)
  | pySet (names : List String)
deriving DecidableEq

/-- The failures a dispatch can raise.

* `unhandledIntent` — the table has no performer for the intent's type
  (effect's `NoPerformerFoundError`);
* `keyError` — a Python dict lookup failed;
* `ruleNotFound` — the `IndexError` raised by `[...][0]` in
  `perform_update_s3_routing_rule` when no routing rule's condition matches
  (the failure the spec names `RuleNotFound`);
* `ioError` — a local file could not be opened;
* `attributeError` — a performer received an intent of the wrong class
  (unreachable through the two real tables);
* `recursionError` — the fuel ran out (Python's `RecursionError`; only a
  cyclic dispatcher table could reach it). -/
inductive Err : Type
  | unhandledIntent
  | keyError
  | ruleNotFound
  | ioError
  | attributeError
  | recursionError
deriving DecidableEq

/-- The performer functions that appear in the two dispatcher tables: the
module-level real performers, and the bound methods of a `FakeAWS`. -/
inductive PerformerId : Type
  | perform_update_s3_routing_rule
  | perform_create_cloudfront_invalidation
  | perform_delete_s3_keys
  | perform_copy_s3_keys
  | perform_list_s3_keys
  | perform_download_s3_key_recursively
  | perform_download_s3_key
  | perform_upload_s3_key_recursively
  | perform_upload_s3_key
  | fakeAWS_update_s3_routing_rule
  | fakeAWS_create_cloudfront_invalidation
  | fakeAWS_delete_s3_keys
  | fakeAWS_copy_s3_keys
  | fakeAWS_list_s3_keys
  | fakeAWS_download_s3_key
  | fakeAWS_upload_s3_key
deriving DecidableEq

abbrev Dispatcher := List (Tag × PerformerId)

/-- `boto_dispatcher`, entries in source order. -/
def boto_dispatcher : Dispatcher :=
  [ (.updateS3RoutingRule, .perform_update_s3_routing_rule),
    (.listS3Keys, .perform_list_s3_keys),
    (.deleteS3Keys, .perform_delete_s3_keys),
    (.copyS3Keys, .perform_copy_s3_keys),
    (.downloadS3KeyRecursively, .perform_download_s3_key_recursively),
    (.downloadS3Key, .perform_download_s3_key),
    (.uploadToS3Recursively, .perform_upload_s3_key_recursively),
    (.uploadToS3, .perform_upload_s3_key),
    (.createCloudFrontInvalidation, .perform_create_cloudfront_invalidation) ]

/-- `FakeAWS.get_dispatcher()`, entries in source order: the two composite
intents share the real composite performers, the rest are the fake's bound
methods. -/
def fake_dispatcher : Dispatcher :=
  [ (.downloadS3KeyRecursively, .perform_download_s3_key_recursively),
    (.uploadToS3Recursively, .perform_upload_s3_key_recursively),
    (.updateS3RoutingRule, .fakeAWS_update_s3_routing_rule),
    (.listS3Keys, .fakeAWS_list_s3_keys),
    (.deleteS3Keys, .fakeAWS_delete_s3_keys),
    (.copyS3Keys, .fakeAWS_copy_s3_keys),
    (.downloadS3Key, .fakeAWS_download_s3_key),
    (.uploadToS3, .fakeAWS_upload_s3_key),
    (.createCloudFrontInvalidation, .fakeAWS_create_cloudfront_invalidation) ]

/-! ## The fake backend -/

/-- The state of a `FakeAWS`: routing rules per bucket, bucket contents,
and the list of CloudFront invalidations issued so far. -/
structure FakeAWS : Type where
  routing_rules : List (String × List (String × String))
  s3_buckets : List (String × List (String × Bytes))
  cloudfront_invalidations : List Intent
deriving DecidableEq

/-- `FakeAWS._perform_update_s3_routing_rule`: read
`routing_rules[bucket][pfx]` (a failed lookup raises), overwrite it with
`target_pfx`, and return the old target. -/
def fakeAWSUpdateS3RoutingRule (aws : FakeAWS)
    (bucket pfx target_pfx : String) : Except Err Result × FakeAWS :=
  match alLookup aws.routing_rules bucket with
  | none => (.error .keyError, aws)
  | some rules =>
      match alLookup rules pfx with
      | none => (.error .keyError, aws)
      | some old_target =>
          (.ok (.pyStr old_target),
           { aws with routing_rules :=
               (alUpdate aws.routing_rules bucket
                 (alUpdate rules pfx target_pfx)) })

/-- `FakeAWS._perform_create_cloudfront_invalidation`: append the intent,
verbatim, to the invalidation list. -/
def fakeAWSCreateCloudFrontInvalidation (aws : FakeAWS) (i : Intent) :
    Except Err Result × FakeAWS :=
  (.ok .pyNone,
   { aws with cloudfront_invalidations := aws.cloudfront_invalidations ++ [i] })

/-- The `for key in intent.keys: del bucket[intent.prefix + key]` loop of
`FakeAWS._perform_delete_s3_keys`: deletions already made persist when a
later key is absent and the loop raises. -/
def deleteKeysLoop (pfx : String) :
    List String → List (String × Bytes) →
      Except Err Result × List (String × Bytes)
  | [], bucket => (.ok .pyNone, bucket)
  | k :: rest, bucket =>
      match alLookup bucket (pfx ++ k) with
      | none => (.error .keyError, bucket)
      | some _ => deleteKeysLoop pfx rest (alErase bucket (pfx ++ k))

/-- `FakeAWS._perform_delete_s3_keys`. -/
def fakeAWSDeleteS3Keys (aws : FakeAWS) (bucket pfx : String)
    (keys : List String) : Except Err Result × FakeAWS :=
  match alLookup aws.s3_buckets bucket with
  | none => (.error .keyError, aws)
  | some b =>
      let (r, b') := deleteKeysLoop pfx keys b
      (r, { aws with s3_buckets := alUpdate aws.s3_buckets bucket b' })

/-- The copy loop of `FakeAWS._perform_copy_s3_keys`.  Both bucket dicts
are re-read from the map on every step, so the aliasing of
`source_bucket = destination_bucket` behaves as in Python, and writes
already made persist when a later source key is absent. -/
def copyKeysLoop (sb spfx db dpfx : String) :
    List String → List (String × List (String × Bytes)) →
      Except Err Result × List (String × List (String × Bytes))
  | [], buckets => (.ok .pyNone, buckets)
  | k :: rest, buckets =>
      match alLookup buckets sb with
      | none => (.error .keyError, buckets)
      | some src =>
          match alLookup src (spfx ++ k) with
          | none => (.error .keyError, buckets)
          | some v =>
              match alLookup buckets db with
              | none => (.error .keyError, buckets)
              | some dest =>
                  copyKeysLoop sb spfx db dpfx rest
                    (alUpdate buckets db (alUpdate dest (dpfx ++ k) v))

/-- `FakeAWS._perform_copy_s3_keys`: both buckets are looked up before the
loop (a missing one raises first). -/
def fakeAWSCopyS3Keys (aws : FakeAWS)
    (sb spfx db dpfx : String) (keys : List String) :
    Except Err Result × FakeAWS :=
  match alLookup aws.s3_buckets sb with
  | none => (.error .keyError, aws)
  | some _ =>
      match alLookup aws.s3_buckets db with
      | none => (.error .keyError, aws)
      | some _ =>
          let (r, bs') := copyKeysLoop sb spfx db dpfx keys aws.s3_buckets
          (r, { aws with s3_buckets := bs' })

/-- `FakeAWS._perform_list_s3_keys`: the set comprehension
`{key[len(prefix):] for key in bucket if key.startswith(prefix)}`. -/
def fakeAWSListS3Keys (aws : FakeAWS) (bucket pfx : String) :
    Except Err Result × FakeAWS :=
  match alLookup aws.s3_buckets bucket with
  | none => (.error .keyError, aws)
  | some b =>
      (.ok (.pySet (pyDedup
          (((b.map Prod.fst).filter (fun k => strStartsWith k pfx)).map
            (fun k => strDrop k (strLen pfx))))),
       aws)

/-- `FakeAWS._perform_download_s3_key`:
`intent.target_path.setContent(bucket[intent.source_key])`. -/
def fakeAWSDownloadS3Key (aws : FakeAWS) (fs : FS)
    (source_bucket source_key target_path : String) :
    Except Err Result × FS :=
  match alLookup aws.s3_buckets source_bucket with
  | none => (.error .keyError, fs)
  | some b =>
      match alLookup b source_key with
      | none => (.error .keyError, fs)
      | some content => (.ok .pyNone, fs.setContent target_path content)

/-- `FakeAWS._perform_upload_s3_key`: store the file's bytes at key
`target_key + file.path[len(source_path.path):]`. -/
def fakeAWSUploadS3Key (aws : FakeAWS) (fs : FS)
    (source_path target_bucket target_key file : String) :
    Except Err Result × FakeAWS :=
  match alLookup aws.s3_buckets target_bucket with
  | none => (.error .keyError, aws)
  | some b =>
      match fs.readFile file with
      | none => (.error .ioError, aws)
      | some content =>
          (.ok .pyNone,
           { aws with s3_buckets :=
               (alUpdate aws.s3_buckets target_bucket
                 (alUpdate b (target_key ++ strDrop file (strLen source_path))
                   content)) })

/-- The state a fake dispatch acts on: the `FakeAWS` model plus the local
filesystem. -/
structure FakeWorld : Type where
  aws : FakeAWS
  fs : FS
deriving DecidableEq

/-- A dispatch function as passed into the composite performers: it takes
the current world and a sub-intent and produces the result (or raised
error) and the final world. -/
abbrev SubDispatch := FakeWorld → Intent → Except Err Result × FakeWorld

/-- Run one primitive performer of the fake table.  A performer applied to
an intent of the wrong class would fail attribute lookup in Python; the
real module-level performers would leave the in-memory model for the
network, which is outside this embedding — neither case is reachable
through `fake_dispatcher`. -/
def runFakePrim : PerformerId → FakeWorld → Intent →
    Except Err Result × FakeWorld
  | .fakeAWS_update_s3_routing_rule, w, .updateS3RoutingRule b p t =>
      let (r, aws') := fakeAWSUpdateS3RoutingRule w.aws b p t
      (r, { w with aws := aws' })
  | .fakeAWS_create_cloudfront_invalidation, w,
      .createCloudFrontInvalidation c ps =>
      let (r, aws') := fakeAWSCreateCloudFrontInvalidation w.aws
        (.createCloudFrontInvalidation c ps)
      (r, { w with aws := aws' })
  | .fakeAWS_delete_s3_keys, w, .deleteS3Keys b p ks =>
      let (r, aws') := fakeAWSDeleteS3Keys w.aws b p ks
      (r, { w with aws := aws' })
  | .fakeAWS_copy_s3_keys, w, .copyS3Keys sb sp db dp ks =>
      let (r, aws') := fakeAWSCopyS3Keys w.aws sb sp db dp ks
      (r, { w with aws := aws' })
  | .fakeAWS_list_s3_keys, w, .listS3Keys b p =>
      let (r, aws') := fakeAWSListS3Keys w.aws b p
      (r, { w with aws := aws' })
  | .fakeAWS_download_s3_key, w, .downloadS3Key sb sk tp =>
      let (r, fs') := fakeAWSDownloadS3Key w.aws w.fs sb sk tp
      (r, { w with fs := fs' })
  | .fakeAWS_upload_s3_key, w, .uploadToS3 sp tb tk f =>
      let (r, aws') := fakeAWSUploadS3Key w.aws w.fs sp tb tk f
      (r, { w with aws := aws' })
  | _, w, _ => (.error .attributeError, w)

/-! ## Composite performers (shared between the two dispatchers) -/

/-- The upload loop of `perform_upload_s3_key_recursively`: for each walked
path, `if path.basename() in intent.files: if path.isfile(): yield
Effect(UploadToS3(...))`.  Returns the result, the final world and the
sub-intents dispatched; a raised sub-effect aborts the loop. -/
def uploadRecLoop (D : SubDispatch)
    (source_path target_bucket target_key : String) (files : List String) :
    List FSEntry → FakeWorld → Except Err Result × FakeWorld × List Intent
  | [], w => (.ok .pyNone, w, [])
  | e :: rest, w =>
      if files.contains (basename e.path) then
        if e.isFile then
          match D w (.uploadToS3 source_path target_bucket target_key
              e.path) with
          | (.ok _, w') =>
              let (r, w'', tr) := uploadRecLoop D source_path target_bucket
                target_key files rest w'
              (r, w'',
               Intent.uploadToS3 source_path target_bucket target_key e.path
                 :: tr)
          | (.error err, w') =>
              (.error err, w',
               [Intent.uploadToS3 source_path target_bucket target_key
                 e.path])
        else uploadRecLoop D source_path target_bucket target_key files
          rest w
      else uploadRecLoop D source_path target_bucket target_key files rest w

/-- `perform_upload_s3_key_recursively`: walk `source_path` and upload the
matching regular files through the dispatcher passed in. -/
def perform_upload_s3_key_recursively (D : SubDispatch)
    (source_path target_bucket target_key : String) (files : List String)
    (w : FakeWorld) : Except Err Result × FakeWorld × List Intent :=
  uploadRecLoop D source_path target_bucket target_key files
    (w.fs.walk source_path) w

/-- The download loop of `perform_download_s3_key_recursively`: skip keys
not ending in one of the filter extensions; otherwise ensure the parent
directory of `target_path/key` exists (creating it recursively) and
dispatch a `DownloadS3Key` for `os.path.join(source_pfx, key)`. -/
def downloadRecLoop (D : SubDispatch)
    (source_bucket source_pfx target_path : String) (exts : List String) :
    List String → FakeWorld → Except Err Result × FakeWorld × List Intent
  | [], w => (.ok .pyNone, w, [])
  | key :: rest, w =>
      if exts.any (fun ext => strEndsWith key ext) then
        let path := target_path ++ "/" ++ key
        let w1 : FakeWorld :=
          if w.fs.pathExists (parentPath path) then w
          else { w with fs := w.fs.makedirs (parentPath path) }
        match D w1 (.downloadS3Key source_bucket
            (osPathJoin source_pfx key) path) with
        | (.ok _, w2) =>
            let (r, w3, tr) := downloadRecLoop D source_bucket source_pfx
              target_path exts rest w2
            (r, w3,
             Intent.downloadS3Key source_bucket (osPathJoin source_pfx key)
               path :: tr)
        | (.error err, w2) =>
            (.error err, w2,
             [Intent.downloadS3Key source_bucket (osPathJoin source_pfx key)
               path])
      else downloadRecLoop D source_bucket source_pfx target_path exts
        rest w

/-- `perform_download_s3_key_recursively`: first dispatch a `ListS3Keys`
for `source_pfx + "/"`, then download the matching keys through the
dispatcher passed in.  A list performer returning anything but a set would
make the `for key in keys` loop fail in Python; that case is unreachable
through the two real tables. -/
def perform_download_s3_key_recursively (D : SubDispatch)
    (source_bucket source_pfx target_path : String) (exts : List String)
    (w : FakeWorld) : Except Err Result × FakeWorld × List Intent :=
  match D w (.listS3Keys source_bucket (source_pfx ++ "/")) with
  | (.ok (.pySet keys), w1) =>
      let (r, w2, tr) := downloadRecLoop D source_bucket source_pfx
        target_path exts keys w1
      (r, w2, Intent.listS3Keys source_bucket (source_pfx ++ "/") :: tr)
  | (.ok _, w1) =>
      (.error .attributeError, w1,
       [Intent.listS3Keys source_bucket (source_pfx ++ "/")])
  | (.error err, w1) =>
      (.error err, w1,
       [Intent.listS3Keys source_bucket (source_pfx ++ "/")])

/-! ## Dispatch -/

/-- `dispatch` against the in-memory fake world: look the intent's runtime
type up in the table and run the registered performer, passing the
dispatcher through so composite performers can recurse.  `fuel` bounds the
re-entrant recursion depth (the source dispatches only primitive
sub-intents, so fuel 2 already suffices for every intent).  The third
component is the list of sub-intents the performer itself dispatched. -/
def dispatchFake (d : Dispatcher) :
    Nat → FakeWorld → Intent → Except Err Result × FakeWorld × List Intent
  | 0, w, _ => (.error .recursionError, w, [])
  | fuel + 1, w, i =>
      match alLookup d i.tag with
      | none => (.error .unhandledIntent, w, [])
      | some pid =>
          match pid, i with
          | .perform_download_s3_key_recursively,
              .downloadS3KeyRecursively sb sp tp exts =>
              perform_download_s3_key_recursively
                (fun w' i' =>
                  ((dispatchFake d fuel w' i').1,
                   (dispatchFake d fuel w' i').2.1))
                sb sp tp exts w
          | .perform_upload_s3_key_recursively,
              .uploadToS3Recursively sp tb tk files =>
              perform_upload_s3_key_recursively
                (fun w' i' =>
                  ((dispatchFake d fuel w' i').1,
                   (dispatchFake d fuel w' i').2.1))
                sp tb tk files w
          | pid, i =>
              let (r, w') := runFakePrim pid w i
              (r, w', [])

/-- The dispatch function a composite performer running at the given fuel
receives: `dispatchFake` one fuel level down, with the sub-trace dropped. -/
def subDispatchOf (d : Dispatcher) (fuel : Nat) : SubDispatch :=
  fun w' i' =>
    ((dispatchFake d fuel w' i').1, (dispatchFake d fuel w' i').2.1)

/-! ## The real performers backed by boto

Only the performers the claims reason about semantically are modelled: the
routing-rule update and the key listing.  The boto SDK itself is the
external collaborator; its observable contract (bucket website
configurations as ordered rule lists, `bucket.list(prefix)` as the keys
starting with the prefix) is taken from its use in the source. -/

/-- One routing rule of a bucket website configuration: the source reads
`rule.condition.key_prefix` and reads/writes
`rule.redirect.replace_key_prefix`. -/
structure RoutingRule : Type where
  condition_key_pfx : String
  redirect_replace_key_pfx : String
deriving DecidableEq

/-- A bucket website configuration: its ordered list of routing rules. -/
structure WebsiteConfig : Type where
  rules : List RoutingRule
deriving DecidableEq

/-- The modelled state of S3 as boto exposes it: per-bucket website
configurations, per-bucket keys, and a count of
`set_website_configuration` calls (so that "no write happened" is
observable). -/
structure BotoS3 : Type where
  website_configs : List (String × WebsiteConfig)
  buckets : List (String × List (String × Bytes))
  website_set_calls : Nat
deriving DecidableEq

/-- The in-place mutation `rule.redirect.replace_key_prefix = target` of
the first rule whose condition matches, inside the fetched configuration. -/
def updateFirstMatchingRule :
    List RoutingRule → String → String → List RoutingRule
  | [], _, _ => []
  | r :: rest, pfx, tgt =>
      if r.condition_key_pfx = pfx then
        { r with redirect_replace_key_pfx := tgt } :: rest
      else r :: updateFirstMatchingRule rest pfx tgt

/-- `perform_update_s3_routing_rule`: fetch the bucket's website
configuration, take the first rule whose condition key equals `pfx`
(`[...][0]` raises when the filtered list is empty), short-circuit when the
redirect already equals `target_pfx`, else overwrite it, persist the
configuration and return the old target. -/
def perform_update_s3_routing_rule (s3 : BotoS3)
    (bucket pfx target_pfx : String) : Except Err Result × BotoS3 :=
  match alLookup s3.website_configs bucket with
  | none => (.error .keyError, s3)
  | some config =>
      match config.rules.filter (fun r => r.condition_key_pfx = pfx) with
      | [] => (.error .ruleNotFound, s3)
      | rule :: _ =>
          if rule.redirect_replace_key_pfx = target_pfx then
            (.ok .pyNone, s3)
          else
            (.ok (.pyStr rule.redirect_replace_key_pfx),
             { s3 with
                website_configs :=
                  (alUpdate s3.website_configs bucket
                    ⟨updateFirstMatchingRule config.rules pfx target_pfx⟩),
                website_set_calls := s3.website_set_calls + 1 })

/-- `perform_list_s3_keys`: `{key.name[len(intent.prefix):] for key in
bucket.list(intent.prefix)}`, with `bucket.list(p)` modelled as the keys
starting with `p`. -/
def perform_list_s3_keys (s3 : BotoS3) (bucket pfx : String) :
    Except Err Result × BotoS3 :=
  match alLookup s3.buckets bucket with
  | none => (.error .keyError, s3)
  | some b =>
      (.ok (.pySet (pyDedup
          (((b.map Prod.fst).filter (fun k => strStartsWith k pfx)).map
            (fun k => strDrop k (strLen pfx))))),
       s3)

/-! ## Association-list lemmas -/

theorem alLookup_alUpdate_self {α β : Type} [DecidableEq α]
    (l : List (α × β)) (k : α) (v : β) :
    alLookup (alUpdate l k v) k = some v := by
  induction l with
  | nil => simp [alLookup, alUpdate]
  | cons p rest ih =>
      obtain ⟨k', v'⟩ := p
      by_cases h : k' = k
      · subst h; simp [alLookup, alUpdate]
      · simp [alLookup, alUpdate, h, ih]

theorem alLookup_alUpdate_ne {α β : Type} [DecidableEq α]
    (l : List (α × β)) {k k' : α} (v : β) (h : k ≠ k') :
    alLookup (alUpdate l k v) k' = alLookup l k' := by
  induction l with
  | nil => simp [alLookup, alUpdate, h]
  | cons p rest ih =>
      obtain ⟨k₀, v₀⟩ := p
      by_cases h₀ : k₀ = k
      · subst h₀; simp [alLookup, alUpdate, h]
      · simp [alLookup, alUpdate, h₀, ih]

theorem alUpdate_self {α β : Type} [DecidableEq α]
    {l : List (α × β)} {k : α} {v : β} (h : alLookup l k = some v) :
    alUpdate l k v = l := by
  induction l with
  | nil => simp [alLookup] at h
  | cons p rest ih =>
      obtain ⟨k₀, v₀⟩ := p
      simp only [alLookup] at h
      by_cases h₀ : k₀ = k
      · rw [if_pos h₀] at h
        injection h with hv
        subst h₀
        subst hv
        simp [alUpdate]
      · rw [if_neg h₀] at h
        simp [alUpdate, h₀, ih h]

theorem alUpdate_alUpdate {α β : Type} [DecidableEq α]
    (l : List (α × β)) (k : α) (v v' : β) :
    alUpdate (alUpdate l k v) k v' = alUpdate l k v' := by
  induction l with
  | nil => simp [alUpdate]
  | cons p rest ih =>
      obtain ⟨k₀, v₀⟩ := p
      by_cases h₀ : k₀ = k
      · subst h₀; simp [alUpdate]
      · simp [alUpdate, h₀, ih]

theorem alLookup_alErase_ne {α β : Type} [DecidableEq α]
    (l : List (α × β)) {k k' : α} (h : k ≠ k') :
    alLookup (alErase l k) k' = alLookup l k' := by
  induction l with
  | nil => simp [alErase]
  | cons p rest ih =>
      obtain ⟨k₀, v₀⟩ := p
      by_cases h₀ : k₀ = k
      · subst h₀; simp [alLookup, alErase, h]
      · simp [alLookup, alErase, h₀, ih]

theorem alLookup_eq_none_of_not_mem {α β : Type} [DecidableEq α]
    {l : List (α × β)} {k : α} (h : k ∉ l.map Prod.fst) :
    alLookup l k = none := by
  induction l with
  | nil => rfl
  | cons p rest ih =>
      obtain ⟨k₀, v₀⟩ := p
      simp only [List.map_cons, List.mem_cons] at h
      push_neg at h
      have hne : k₀ ≠ k := fun hh => h.1 hh.symm
      simp [alLookup, hne, ih h.2]

theorem alLookup_alErase_self {α β : Type} [DecidableEq α]
    {l : List (α × β)} (h : (l.map Prod.fst).Nodup) (k : α) :
    alLookup (alErase l k) k = none := by
  induction l with
  | nil => rfl
  | cons p rest ih =>
      obtain ⟨k₀, v₀⟩ := p
      simp only [List.map_cons, List.nodup_cons] at h
      by_cases h₀ : k₀ = k
      · subst h₀
        simp only [alErase, if_pos rfl]
        exact alLookup_eq_none_of_not_mem h.1
      · simp only [alErase, if_neg h₀, alLookup, if_neg h₀]
        exact ih h.2

theorem map_fst_alErase_sublist {α β : Type} [DecidableEq α]
    (l : List (α × β)) (k : α) :
    ((alErase l k).map Prod.fst).Sublist (l.map Prod.fst) := by
  induction l with
  | nil => simp [alErase]
  | cons p rest ih =>
      obtain ⟨k₀, v₀⟩ := p
      by_cases h₀ : k₀ = k
      · simp only [alErase, if_pos h₀, List.map_cons]
        exact (List.sublist_cons_self _ _)
      · simp only [alErase, if_neg h₀, List.map_cons]
        exact ih.cons₂ k₀

theorem nodup_alErase {α β : Type} [DecidableEq α]
    {l : List (α × β)} (h : (l.map Prod.fst).Nodup) (k : α) :
    (((alErase l k).map Prod.fst)).Nodup :=
  (map_fst_alErase_sublist l k).nodup h

/-! ## Filesystem lemmas -/

theorem find?_fsSet_self (l : List FSEntry) (p : String) (c : Bytes) :
    (fsSet l p c).find? (fun e => e.path == p) = some ⟨p, .file c⟩ := by
  induction l with
  | nil =>
      simp only [fsSet]
      exact List.find?_cons_of_pos _ (by simp)
  | cons e rest ih =>
      by_cases h : e.path = p
      · simp only [fsSet, if_pos h]
        exact List.find?_cons_of_pos _ (by simp)
      · simp only [fsSet, if_neg h]
        rw [List.find?_cons_of_neg _ (by simp [h])]
        exact ih

theorem find?_fsSet_ne (l : List FSEntry) {p q : String} (c : Bytes)
    (h : p ≠ q) :
    (fsSet l p c).find? (fun e => e.path == q) =
      l.find? (fun e => e.path == q) := by
  induction l with
  | nil =>
      simp only [fsSet]
      rw [List.find?_cons_of_neg _ (by simp [h])]
  | cons e rest ih =>
      by_cases he : e.path = p
      · simp only [fsSet, if_pos he]
        rw [List.find?_cons_of_neg _ (by simp [h]),
          List.find?_cons_of_neg _ (by simp [he, h])]
      · simp only [fsSet, if_neg he]
        by_cases hq : e.path = q
        · rw [List.find?_cons_of_pos _ (by simp [hq]),
            List.find?_cons_of_pos _ (by simp [hq])]
        · rw [List.find?_cons_of_neg _ (by simp [hq]),
            List.find?_cons_of_neg _ (by simp [hq])]
          exact ih

theorem readFile_setContent_self (fs : FS) (p : String) (c : Bytes) :
    (fs.setContent p c).readFile p = some c := by
  unfold FS.setContent FS.readFile
  rw [find?_fsSet_self]

theorem readFile_setContent_ne (fs : FS) {p q : String} (c : Bytes)
    (h : p ≠ q) : (fs.setContent p c).readFile q = fs.readFile q := by
  unfold FS.setContent FS.readFile
  rw [find?_fsSet_ne _ _ h]

theorem mem_fsSet_self (l : List FSEntry) (p : String) (c : Bytes) :
    FSEntry.mk p (.file c) ∈ fsSet l p c := by
  induction l with
  | nil => simp [fsSet]
  | cons e rest ih =>
      by_cases h : e.path = p
      · simp [fsSet, if_pos h]
      · simp only [fsSet, if_neg h]
        exact List.mem_cons_of_mem _ ih

theorem mem_fsSet_of_mem_ne {l : List FSEntry} {x : FSEntry} {p : String}
    (c : Bytes) (hx : x ∈ l) (hne : x.path ≠ p) : x ∈ fsSet l p c := by
  induction l with
  | nil => simp at hx
  | cons e rest ih =>
      rcases List.mem_cons.mp hx with rfl | hx'
      · simp only [fsSet, if_neg hne]
        exact List.mem_cons_self _ _
      · by_cases he : e.path = p
        · simp only [fsSet, if_pos he]
          exact List.mem_cons_of_mem _ hx'
        · simp only [fsSet, if_neg he]
          exact List.mem_cons_of_mem _ (ih hx')

theorem pathExists_setContent (fs : FS) (p q : String) (c : Bytes)
    (h : fs.pathExists q = true) :
    (fs.setContent p c).pathExists q = true := by
  unfold FS.pathExists at h ⊢
  unfold FS.setContent
  rw [List.any_eq_true] at h ⊢
  obtain ⟨x, hx, hpx⟩ := h
  simp only [beq_iff_eq] at hpx
  by_cases hxp : x.path = p
  · have hpq : p = q := by rw [← hxp, hpx]
    exact ⟨⟨p, .file c⟩, mem_fsSet_self fs.entries p c, by simp [hpq]⟩
  · exact ⟨x, mem_fsSet_of_mem_ne c hx hxp, by simp [hpx]⟩

theorem pathExists_makedirs_mono (fs : FS) (p q : String)
    (h : fs.pathExists q = true) :
    (fs.makedirs p).pathExists q = true := by
  unfold FS.pathExists at h ⊢
  unfold FS.makedirs
  simp only [List.any_append, Bool.or_eq_true]
  exact Or.inl h

theorem pathExists_makedirs_self (fs : FS) (p : String) :
    (fs.makedirs p).pathExists p = true := by
  by_cases h : fs.pathExists p = true
  · exact pathExists_makedirs_mono fs p p h
  · unfold FS.pathExists at h
    unfold FS.makedirs FS.pathExists
    rw [List.any_append]
    refine (Bool.or_eq_true _ _).mpr (Or.inr ?_)
    rw [List.any_eq_true]
    refine ⟨⟨p, .dir⟩, List.mem_filterMap.mpr ⟨p, ?_, ?_⟩, by simp⟩
    · unfold ancestorPaths
      simp
    · rw [if_neg h]

theorem find?_eq_of_mem_nodup {l : List FSEntry} {e : FSEntry}
    (hmem : e ∈ l) (hnd : (l.map FSEntry.path).Nodup) :
    l.find? (fun x => x.path == e.path) = some e := by
  induction l with
  | nil => simp at hmem
  | cons x rest ih =>
      simp only [List.map_cons, List.nodup_cons] at hnd
      rcases List.mem_cons.mp hmem with rfl | hmem'
      · exact List.find?_cons_of_pos _ (by simp)
      · have hne : x.path ≠ e.path := by
          intro hx
          exact hnd.1 (hx ▸ List.mem_map_of_mem FSEntry.path hmem')
        rw [List.find?_cons_of_neg _ (by simp [hne])]
        exact ih hmem' hnd.2

/-- A regular-file entry of a duplicate-free filesystem is what `open`
finds at its path. -/
theorem readFile_of_mem_nodup {fs : FS} {e : FSEntry}
    (hmem : e ∈ fs.entries) (hnd : (fs.entries.map FSEntry.path).Nodup)
    (hf : e.isFile = true) : fs.readFile e.path = some e.contentD := by
  unfold FS.readFile
  rw [find?_eq_of_mem_nodup hmem hnd]
  obtain ⟨p, k⟩ := e
  cases k with
  | file c => rfl
  | dir => simp [FSEntry.isFile] at hf

theorem mem_entries_of_mem_walk {fs : FS} {root : String} {e : FSEntry}
    (h : e ∈ fs.walk root) : e ∈ fs.entries :=
  (List.mem_filter.mp h).1

/-! ## Unfolding lemmas for primitive dispatches through the fake table -/

theorem dispatchFake_update (n : Nat) (w : FakeWorld) (b p t : String) :
    dispatchFake fake_dispatcher (n + 1) w (.updateS3RoutingRule b p t) =
      ((fakeAWSUpdateS3RoutingRule w.aws b p t).1,
       ⟨(fakeAWSUpdateS3RoutingRule w.aws b p t).2, w.fs⟩, []) := rfl

theorem dispatchFake_list (n : Nat) (w : FakeWorld) (b p : String) :
    dispatchFake fake_dispatcher (n + 1) w (.listS3Keys b p) =
      ((fakeAWSListS3Keys w.aws b p).1,
       ⟨(fakeAWSListS3Keys w.aws b p).2, w.fs⟩, []) := rfl

theorem dispatchFake_delete (n : Nat) (w : FakeWorld) (b p : String)
    (ks : List String) :
    dispatchFake fake_dispatcher (n + 1) w (.deleteS3Keys b p ks) =
      ((fakeAWSDeleteS3Keys w.aws b p ks).1,
       ⟨(fakeAWSDeleteS3Keys w.aws b p ks).2, w.fs⟩, []) := rfl

theorem dispatchFake_download (n : Nat) (w : FakeWorld) (sb sk tp : String) :
    dispatchFake fake_dispatcher (n + 1) w (.downloadS3Key sb sk tp) =
      ((fakeAWSDownloadS3Key w.aws w.fs sb sk tp).1,
       ⟨w.aws, (fakeAWSDownloadS3Key w.aws w.fs sb sk tp).2⟩, []) := rfl

theorem dispatchFake_upload (n : Nat) (w : FakeWorld) (sp tb tk f : String) :
    dispatchFake fake_dispatcher (n + 1) w (.uploadToS3 sp tb tk f) =
      ((fakeAWSUploadS3Key w.aws w.fs sp tb tk f).1,
       ⟨(fakeAWSUploadS3Key w.aws w.fs sp tb tk f).2, w.fs⟩, []) := rfl

theorem dispatchFake_downloadRec (n : Nat) (w : FakeWorld)
    (sb sp tp : String) (exts : List String) :
    dispatchFake fake_dispatcher (n + 1) w
        (.downloadS3KeyRecursively sb sp tp exts) =
      perform_download_s3_key_recursively
        (subDispatchOf fake_dispatcher n) sb sp tp exts w := rfl

theorem dispatchFake_uploadRec (n : Nat) (w : FakeWorld)
    (sp tb tk : String) (files : List String) :
    dispatchFake fake_dispatcher (n + 1) w
        (.uploadToS3Recursively sp tb tk files) =
      perform_upload_s3_key_recursively
        (subDispatchOf fake_dispatcher n) sp tb tk files w := rfl

/-! ## Claims -/

/-- Claim C1: the fake dispatcher registers the very same composite
performer functions as the real dispatcher for the two composite intent
types (`DownloadS3KeyRecursively` and `UploadToS3Recursively`), so a
composite dispatch through either table runs identical composite logic,
and that logic routes its sub-intents back through the dispatcher that was
passed in (`subDispatchOf`). -/
theorem C1_fake_reuses_real_composite_performers :
    alLookup fake_dispatcher Tag.downloadS3KeyRecursively =
        some PerformerId.perform_download_s3_key_recursively
    ∧ alLookup boto_dispatcher Tag.downloadS3KeyRecursively =
        some PerformerId.perform_download_s3_key_recursively
    ∧ alLookup fake_dispatcher Tag.uploadToS3Recursively =
        some PerformerId.perform_upload_s3_key_recursively
    ∧ alLookup boto_dispatcher Tag.uploadToS3Recursively =
        some PerformerId.perform_upload_s3_key_recursively
    ∧ (∀ (n : Nat) (w : FakeWorld) (sb sp tp : String)
        (exts : List String),
        dispatchFake fake_dispatcher (n + 1) w
            (.downloadS3KeyRecursively sb sp tp exts) =
          perform_download_s3_key_recursively
            (subDispatchOf fake_dispatcher n) sb sp tp exts w)
    ∧ (∀ (n : Nat) (w : FakeWorld) (sp tb tk : String)
        (files : List String),
        dispatchFake fake_dispatcher (n + 1) w
            (.uploadToS3Recursively sp tb tk files) =
          perform_upload_s3_key_recursively
            (subDispatchOf fake_dispatcher n) sp tb tk files w) :=
  ⟨rfl, rfl, rfl, rfl, fun _ _ _ _ _ _ => rfl, fun _ _ _ _ _ _ => rfl⟩

/-- Claim C3: both dispatcher tables register a performer for each of the
nine intent types, and dispatching an intent whose type is absent from the
table in use fails with the unhandled-intent error instead of being
silently ignored. -/
theorem C3_tables_total_and_unhandled_fails :
    (∀ t : Tag, (alLookup boto_dispatcher t).isSome = true
      ∧ (alLookup fake_dispatcher t).isSome = true)
    ∧ (∀ (d : Dispatcher) (n : Nat) (w : FakeWorld) (i : Intent),
        alLookup d i.tag = none →
        dispatchFake d (n + 1) w i = (.error .unhandledIntent, w, [])) := by
  constructor
  · intro t
    cases t <;> exact ⟨rfl, rfl⟩
  · intro d n w i h
    simp [dispatchFake, h]

theorem C3_witness :
    alLookup ([] : Dispatcher) (Intent.listS3Keys "b" "p").tag = none
    ∧ dispatchFake ([] : Dispatcher) 1 ⟨⟨[], [], []⟩, ⟨[]⟩⟩
        (Intent.listS3Keys "b" "p") =
      (.error .unhandledIntent, ⟨⟨[], [], []⟩, ⟨[]⟩⟩, []) :=
  ⟨rfl, C3_tables_total_and_unhandled_fails.2 [] 0 ⟨⟨[], [], []⟩, ⟨[]⟩⟩
    (Intent.listS3Keys "b" "p") rfl⟩

/-- Claim C2, counterexample: with the stored redirect target for
(`"b"`, `"p"`) already equal to the new target `"t"`, the fake dispatcher
returns the old target `"t"` — not the no-previous-value result `None`
the claim asserts for both dispatchers. -/
theorem C2_counterexample :
    (dispatchFake fake_dispatcher 1 ⟨⟨[("b", [("p", "t")])], [], []⟩, ⟨[]⟩⟩
        (.updateS3RoutingRule "b" "p" "t")).1 = .ok (.pyStr "t")
    ∧ Result.pyStr "t" ≠ Result.pyNone :=
  ⟨rfl, by decide⟩

/-- Claim C2, amended: when the new target equals the currently stored
redirect target, the real performer returns `None` and leaves the boto
state (configurations and write counter) unchanged — no write happens —
while the fake dispatcher likewise leaves its stored configuration
unchanged (it rewrites the same value in place) but returns the old
target, which equals the new one, rather than `None`. -/
theorem C2_idempotent_update_amended :
    (∀ (s3 : BotoS3) (bucket pfx target_pfx : String)
        (config : WebsiteConfig) (rule : RoutingRule)
        (rest : List RoutingRule),
        alLookup s3.website_configs bucket = some config →
        config.rules.filter (fun r => r.condition_key_pfx = pfx) =
          rule :: rest →
        rule.redirect_replace_key_pfx = target_pfx →
        perform_update_s3_routing_rule s3 bucket pfx target_pfx =
          (.ok .pyNone, s3))
    ∧ (∀ (n : Nat) (w : FakeWorld) (bucket pfx target_pfx : String)
        (rules : List (String × String)),
        alLookup w.aws.routing_rules bucket = some rules →
        alLookup rules pfx = some target_pfx →
        dispatchFake fake_dispatcher (n + 1) w
            (.updateS3RoutingRule bucket pfx target_pfx) =
          (.ok (.pyStr target_pfx), w, [])) := by
  constructor
  · intro s3 bucket pfx target_pfx config rule rest h1 h2 h3
    simp [perform_update_s3_routing_rule, h1, h2, h3]
  · intro n w bucket pfx target_pfx rules h1 h2
    rw [dispatchFake_update]
    have hperf : fakeAWSUpdateS3RoutingRule w.aws bucket pfx target_pfx =
        (.ok (.pyStr target_pfx), w.aws) := by
      simp only [fakeAWSUpdateS3RoutingRule, h1, h2, alUpdate_self h2,
        alUpdate_self h1]
    rw [hperf]

theorem C2_witness :
    (alLookup (BotoS3.mk [("b", ⟨[⟨"p", "t"⟩]⟩)] [] 0).website_configs "b" =
        some ⟨[⟨"p", "t"⟩]⟩
      ∧ (WebsiteConfig.rules ⟨[⟨"p", "t"⟩]⟩).filter
          (fun r => r.condition_key_pfx = "p") = ⟨"p", "t"⟩ :: []
      ∧ RoutingRule.redirect_replace_key_pfx ⟨"p", "t"⟩ = "t"
      ∧ perform_update_s3_routing_rule (BotoS3.mk [("b", ⟨[⟨"p", "t"⟩]⟩)] [] 0)
          "b" "p" "t" = (.ok .pyNone, BotoS3.mk [("b", ⟨[⟨"p", "t"⟩]⟩)] [] 0))
    ∧ (alLookup (FakeAWS.mk [("b", [("p", "t")])] [] []).routing_rules "b" =
        some [("p", "t")]
      ∧ alLookup [("p", "t")] "p" = some "t"
      ∧ dispatchFake fake_dispatcher 1
          ⟨⟨[("b", [("p", "t")])], [], []⟩, ⟨[]⟩⟩
          (.updateS3RoutingRule "b" "p" "t") =
        (.ok (.pyStr "t"), ⟨⟨[("b", [("p", "t")])], [], []⟩, ⟨[]⟩⟩, [])) :=
  ⟨⟨rfl, rfl, rfl,
    C2_idempotent_update_amended.1 (BotoS3.mk [("b", ⟨[⟨"p", "t"⟩]⟩)] [] 0)
      "b" "p" "t" ⟨[⟨"p", "t"⟩]⟩ ⟨"p", "t"⟩ [] rfl rfl rfl⟩,
   ⟨rfl, rfl,
    C2_idempotent_update_amended.2 0
      ⟨⟨[("b", [("p", "t")])], [], []⟩, ⟨[]⟩⟩ "b" "p" "t" [("p", "t")]
      rfl rfl⟩⟩

/-- Claim C6: when the intent's bucket is absent from the fake's routing
rules, or its key is absent from the bucket's rule dict, the fake
dispatch fails with the propagated lookup error and the whole fake world
(routing rules, buckets, invalidations, filesystem) is unchanged. -/
theorem C6_fake_update_missing_raises_unchanged :
    ∀ (n : Nat) (w : FakeWorld) (bucket pfx target_pfx : String),
      (alLookup w.aws.routing_rules bucket).bind
          (fun rules => alLookup rules pfx) = none →
      dispatchFake fake_dispatcher (n + 1) w
          (.updateS3RoutingRule bucket pfx target_pfx) =
        (.error .keyError, w, []) := by
  intro n w bucket pfx target_pfx h
  rw [dispatchFake_update]
  cases hb : alLookup w.aws.routing_rules bucket with
  | none => simp [fakeAWSUpdateS3RoutingRule, hb]
  | some rules =>
      rw [hb, Option.some_bind] at h
      simp [fakeAWSUpdateS3RoutingRule, hb, h]

theorem C6_witness :
    (alLookup (FakeAWS.mk [("b", [])] [] []).routing_rules "b").bind
        (fun rules => alLookup rules "p") = none
    ∧ dispatchFake fake_dispatcher 1 ⟨⟨[("b", [])], [], []⟩, ⟨[]⟩⟩
        (.updateS3RoutingRule "b" "p" "t") =
      (.error .keyError, ⟨⟨[("b", [])], [], []⟩, ⟨[]⟩⟩, []) :=
  ⟨rfl, C6_fake_update_missing_raises_unchanged 0
    ⟨⟨[("b", [])], [], []⟩, ⟨[]⟩⟩ "b" "p" "t" rfl⟩

/-- Claim C4, counterexample: with stored key `"aa"` and list pfx `"a"`,
the returned set is `{"a"}`, and `"a"` does have the pfx `"a"` as a
leading substring — the claim's "never returns a name containing the
prefix as a leading substring" is false, even though each name is exactly
the stored key with the prefix removed. -/
theorem C4_counterexample :
    (dispatchFake fake_dispatcher 1 ⟨⟨[], [("B", [("aa", [0])])], []⟩, ⟨[]⟩⟩
        (.listS3Keys "B" "a")).1 = .ok (.pySet ["a"])
    ∧ strStartsWith "aa" "a" = true
    ∧ strStartsWith "a" "a" = true :=
  ⟨rfl, rfl, rfl⟩

/-- Claim C4, amended: for both the fake and the real list performer the
returned value is a duplicate-free set whose members are exactly the
stored keys that start with the intent's key pfx, each with that pfx
removed (such a name may itself start with the pfx again, as the
counterexample shows). -/
theorem C4_list_keys_amended :
    (∀ (n : Nat) (w : FakeWorld) (bucket pfx : String)
        (b : List (String × Bytes)),
        alLookup w.aws.s3_buckets bucket = some b →
        ∃ names : List String,
          dispatchFake fake_dispatcher (n + 1) w (.listS3Keys bucket pfx) =
              (.ok (.pySet names), w, [])
          ∧ names.Nodup
          ∧ ∀ x : String, x ∈ names ↔
              ∃ k, k ∈ b.map Prod.fst ∧ strStartsWith k pfx = true
                ∧ x = strDrop k (strLen pfx))
    ∧ (∀ (s3 : BotoS3) (bucket pfx : String) (b : List (String × Bytes)),
        alLookup s3.buckets bucket = some b →
        ∃ names : List String,
          perform_list_s3_keys s3 bucket pfx = (.ok (.pySet names), s3)
          ∧ names.Nodup
          ∧ ∀ x : String, x ∈ names ↔
              ∃ k, k ∈ b.map Prod.fst ∧ strStartsWith k pfx = true
                ∧ x = strDrop k (strLen pfx)) := by
  constructor
  · intro n w bucket pfx b h
    refine ⟨pyDedup (((b.map Prod.fst).filter
        (fun k => strStartsWith k pfx)).map
          (fun k => strDrop k (strLen pfx))), ?_, nodup_pyDedup _, ?_⟩
    · rw [dispatchFake_list]
      simp [fakeAWSListS3Keys, h]
    · intro x
      rw [mem_pyDedup, List.mem_map]
      constructor
      · rintro ⟨k, hk, rfl⟩
        rw [List.mem_filter] at hk
        exact ⟨k, hk.1, hk.2, rfl⟩
      · rintro ⟨k, hk, hs, rfl⟩
        exact ⟨k, List.mem_filter.mpr ⟨hk, hs⟩, rfl⟩
  · intro s3 bucket pfx b h
    refine ⟨pyDedup (((b.map Prod.fst).filter
        (fun k => strStartsWith k pfx)).map
          (fun k => strDrop k (strLen pfx))), ?_, nodup_pyDedup _, ?_⟩
    · simp [perform_list_s3_keys, h]
    · intro x
      rw [mem_pyDedup, List.mem_map]
      constructor
      · rintro ⟨k, hk, rfl⟩
        rw [List.mem_filter] at hk
        exact ⟨k, hk.1, hk.2, rfl⟩
      · rintro ⟨k, hk, hs, rfl⟩
        exact ⟨k, List.mem_filter.mpr ⟨hk, hs⟩, rfl⟩

theorem C4_witness :
    alLookup (FakeAWS.mk [] [("B", [("aa", [0]), ("b", [1])])]
        []).s3_buckets "B" = some [("aa", [0]), ("b", [1])]
    ∧ ∃ names : List String,
        dispatchFake fake_dispatcher 1
            ⟨⟨[], [("B", [("aa", [0]), ("b", [1])])], []⟩, ⟨[]⟩⟩
            (.listS3Keys "B" "a") =
          (.ok (.pySet names),
           ⟨⟨[], [("B", [("aa", [0]), ("b", [1])])], []⟩, ⟨[]⟩⟩, [])
        ∧ names.Nodup
        ∧ ∀ x : String, x ∈ names ↔
            ∃ k, k ∈ [("aa", [0]), ("b", [1])].map
                (Prod.fst (α := String) (β := Bytes))
              ∧ strStartsWith k "a" = true ∧ x = strDrop k (strLen "a") :=
  ⟨rfl, C4_list_keys_amended.1 0
    ⟨⟨[], [("B", [("aa", [0]), ("b", [1])])], []⟩, ⟨[]⟩⟩ "B" "a"
    [("aa", [0]), ("b", [1])] rfl⟩

theorem updateFirstMatchingRule_append {pre : List RoutingRule}
    {r : RoutingRule} {post : List RoutingRule} {pfx t : String}
    (hpre : ∀ r' ∈ pre, r'.condition_key_pfx ≠ pfx)
    (hr : r.condition_key_pfx = pfx) :
    updateFirstMatchingRule (pre ++ r :: post) pfx t =
      pre ++ { r with redirect_replace_key_pfx := t } :: post := by
  induction pre with
  | nil => simp [updateFirstMatchingRule, hr]
  | cons a pre ih =>
      have ha := hpre a (List.mem_cons_self a pre)
      simp only [List.cons_append, updateFirstMatchingRule, if_neg ha]
      exact congrArg (a :: ·)
        (ih (fun r' hm => hpre r' (List.mem_cons_of_mem a hm)))

/-- Claim C5: when no routing rule's condition key equals the intent's
pfx, the real performer fails with the rule-not-found error (the
`IndexError` of `[..][0]`); and when one or more match, the first in
source order decides everything — later matching rules are neither
consulted nor modified. -/
theorem C5_real_update_not_found_and_first_match :
    (∀ (s3 : BotoS3) (bucket pfx target_pfx : String)
        (config : WebsiteConfig),
        alLookup s3.website_configs bucket = some config →
        (∀ r ∈ config.rules, r.condition_key_pfx ≠ pfx) →
        perform_update_s3_routing_rule s3 bucket pfx target_pfx =
          (.error .ruleNotFound, s3))
    ∧ (∀ (s3 : BotoS3) (bucket pfx target_pfx : String)
        (config : WebsiteConfig) (pre post : List RoutingRule)
        (r : RoutingRule),
        alLookup s3.website_configs bucket = some config →
        config.rules = pre ++ r :: post →
        (∀ r' ∈ pre, r'.condition_key_pfx ≠ pfx) →
        r.condition_key_pfx = pfx →
        perform_update_s3_routing_rule s3 bucket pfx target_pfx =
          if r.redirect_replace_key_pfx = target_pfx then (.ok .pyNone, s3)
          else
            (.ok (.pyStr r.redirect_replace_key_pfx),
             { s3 with
                website_configs := (alUpdate s3.website_configs bucket
                  ⟨pre ++ { r with redirect_replace_key_pfx := target_pfx }
                    :: post⟩),
                website_set_calls := s3.website_set_calls + 1 })) := by
  constructor
  · intro s3 bucket pfx target_pfx config h1 h2
    have hf : config.rules.filter (fun r => r.condition_key_pfx = pfx)
        = [] := by
      rw [List.filter_eq_nil_iff]
      intro a ha
      simpa using h2 a ha
    simp [perform_update_s3_routing_rule, h1, hf]
  · intro s3 bucket pfx target_pfx config pre post r h1 h2 hpre hr
    have hfpre : pre.filter (fun x => x.condition_key_pfx = pfx) = [] := by
      rw [List.filter_eq_nil_iff]
      intro a ha
      simpa using hpre a ha
    have hfilter : config.rules.filter (fun x => x.condition_key_pfx = pfx)
        = r :: post.filter (fun x => x.condition_key_pfx = pfx) := by
      rw [h2, List.filter_append, hfpre, List.nil_append,
        List.filter_cons_of_pos (by simpa using hr)]
    have hupd : updateFirstMatchingRule config.rules pfx target_pfx =
        pre ++ { r with redirect_replace_key_pfx := target_pfx } :: post := by
      rw [h2, updateFirstMatchingRule_append hpre hr]
    by_cases hred : r.redirect_replace_key_pfx = target_pfx
    · simp [perform_update_s3_routing_rule, h1, hfilter, hred]
    · simp [perform_update_s3_routing_rule, h1, hfilter, hred, hupd]

theorem C5_witness :
    (alLookup (BotoS3.mk [("b", ⟨[]⟩)] [] 0).website_configs "b" =
        some ⟨[]⟩
      ∧ perform_update_s3_routing_rule (BotoS3.mk [("b", ⟨[]⟩)] [] 0)
          "b" "p" "t" = (.error .ruleNotFound, BotoS3.mk [("b", ⟨[]⟩)] [] 0))
    ∧ (alLookup (BotoS3.mk [("b", ⟨[⟨"p", "t1"⟩, ⟨"p", "t2"⟩]⟩)] []
          0).website_configs "b" = some ⟨[⟨"p", "t1"⟩, ⟨"p", "t2"⟩]⟩
      ∧ perform_update_s3_routing_rule
          (BotoS3.mk [("b", ⟨[⟨"p", "t1"⟩, ⟨"p", "t2"⟩]⟩)] [] 0)
          "b" "p" "t3" =
        if RoutingRule.redirect_replace_key_pfx ⟨"p", "t1"⟩ = "t3" then
          (.ok .pyNone, BotoS3.mk [("b", ⟨[⟨"p", "t1"⟩, ⟨"p", "t2"⟩]⟩)] [] 0)
        else
          (.ok (.pyStr (RoutingRule.redirect_replace_key_pfx ⟨"p", "t1"⟩)),
           { BotoS3.mk [("b", ⟨[⟨"p", "t1"⟩, ⟨"p", "t2"⟩]⟩)] [] 0 with
              website_configs := (alUpdate
                (BotoS3.mk [("b", ⟨[⟨"p", "t1"⟩, ⟨"p", "t2"⟩]⟩)] []
                  0).website_configs "b"
                ⟨[] ++ { RoutingRule.mk "p" "t1" with
                    redirect_replace_key_pfx := "t3" } :: [⟨"p", "t2"⟩]⟩),
              website_set_calls := 0 + 1 })) :=
  ⟨⟨rfl, C5_real_update_not_found_and_first_match.1
      (BotoS3.mk [("b", ⟨[]⟩)] [] 0) "b" "p" "t" ⟨[]⟩ rfl
      (by intro r hr; simp at hr)⟩,
   ⟨rfl, C5_real_update_not_found_and_first_match.2
      (BotoS3.mk [("b", ⟨[⟨"p", "t1"⟩, ⟨"p", "t2"⟩]⟩)] [] 0) "b" "p" "t3"
      ⟨[⟨"p", "t1"⟩, ⟨"p", "t2"⟩]⟩ [] [⟨"p", "t2"⟩] ⟨"p", "t1"⟩ rfl rfl
      (by intro r hr; simp at hr) rfl⟩⟩

/-! ## Foldl-erase lemmas for the delete loop -/

theorem alLookup_foldl_erase_not_mem (pfx : String) :
    ∀ (ks : List String) (b : List (String × Bytes)) (q : String),
      q ∉ ks.map (fun k' => pfx ++ k') →
      alLookup (ks.foldl (fun bk k' => alErase bk (pfx ++ k')) b) q =
        alLookup b q := by
  intro ks
  induction ks with
  | nil => intro b q _; rfl
  | cons k0 ks ih =>
      intro b q hq
      simp only [List.map_cons, List.mem_cons] at hq
      push_neg at hq
      rw [List.foldl_cons, ih _ q hq.2,
        alLookup_alErase_ne _ (fun hh => hq.1 hh.symm)]

theorem nodup_foldl_erase :
    ∀ (qs : List String) (b : List (String × Bytes)),
      (b.map Prod.fst).Nodup →
      ((qs.foldl (fun bk q => alErase bk q) b).map Prod.fst).Nodup := by
  intro qs
  induction qs with
  | nil => intro b hb; exact hb
  | cons q0 qs ih =>
      intro b hb
      rw [List.foldl_cons]
      exact ih _ (nodup_alErase hb q0)

theorem alLookup_foldl_erase_mem (pfx : String) :
    ∀ (ks : List String) (b : List (String × Bytes)),
      (b.map Prod.fst).Nodup →
      (ks.map (fun k' => pfx ++ k')).Nodup →
      ∀ k' ∈ ks,
        alLookup (ks.foldl (fun bk k' => alErase bk (pfx ++ k')) b)
          (pfx ++ k') = none := by
  intro ks
  induction ks with
  | nil => intro b _ _ k' hk'; simp at hk'
  | cons k0 ks ih =>
      intro b hb hnd k' hk'
      simp only [List.map_cons, List.nodup_cons] at hnd
      rw [List.foldl_cons]
      rcases List.mem_cons.mp hk' with rfl | hk''
      · rw [alLookup_foldl_erase_not_mem pfx ks _ _ hnd.1]
        exact alLookup_alErase_self hb _
      · exact ih _ (nodup_alErase hb _) hnd.2 k' hk''

theorem deleteKeysLoop_spec (pfx : String) :
    ∀ (ks1 : List String) (k : String) (ks2 : List String)
      (b : List (String × Bytes)),
      (ks1.map (fun k' => pfx ++ k')).Nodup →
      (∀ k' ∈ ks1, (alLookup b (pfx ++ k')).isSome = true) →
      alLookup b (pfx ++ k) = none →
      deleteKeysLoop pfx (ks1 ++ k :: ks2) b =
        (.error .keyError,
         ks1.foldl (fun bk k' => alErase bk (pfx ++ k')) b) := by
  intro ks1
  induction ks1 with
  | nil =>
      intro k ks2 b _ _ hk
      simp [deleteKeysLoop, hk]
  | cons k0 ks1 ih =>
      intro k ks2 b hnd hpresent hk
      simp only [List.map_cons, List.nodup_cons] at hnd
      obtain ⟨v, hv⟩ := Option.isSome_iff_exists.mp
        (hpresent k0 (List.mem_cons_self k0 ks1))
      have hne : pfx ++ k0 ≠ pfx ++ k := by
        intro hh
        rw [hh, hk] at hv
        cases hv
      simp only [List.cons_append, deleteKeysLoop, hv, List.foldl_cons]
      refine ih k ks2 (alErase b (pfx ++ k0)) hnd.2 (fun k' hk' => ?_)
        (by rw [alLookup_alErase_ne _ hne]; exact hk)
      have hne' : pfx ++ k0 ≠ pfx ++ k' := by
        intro hh
        exact hnd.1 (by
          rw [hh]
          exact List.mem_map_of_mem (fun k'' => pfx ++ k'') hk')
      rw [alLookup_alErase_ne _ hne']
      exact hpresent k' (List.mem_cons_of_mem k0 hk')

/-- Claim C10: the fake delete performer removes pfx+key entries one at a
time in list order; when some pfx+key is absent the dispatch fails there
with the lookup error, and in the resulting state every earlier key of the
list has been removed while every other key of the bucket (in particular
every later one) is untouched — the partial deletion is not rolled back. -/
theorem C10_fake_delete_partial_no_rollback :
    ∀ (n : Nat) (w : FakeWorld) (bucket pfx : String)
      (ks1 ks2 : List String) (k : String) (b : List (String × Bytes)),
      alLookup w.aws.s3_buckets bucket = some b →
      (b.map Prod.fst).Nodup →
      (ks1.map (fun k' => pfx ++ k')).Nodup →
      (∀ k' ∈ ks1, (alLookup b (pfx ++ k')).isSome = true) →
      alLookup b (pfx ++ k) = none →
      dispatchFake fake_dispatcher (n + 1) w
          (.deleteS3Keys bucket pfx (ks1 ++ k :: ks2)) =
        (.error .keyError,
         ⟨{ w.aws with s3_buckets := (alUpdate w.aws.s3_buckets bucket
              (ks1.foldl (fun bk k' => alErase bk (pfx ++ k')) b)) },
          w.fs⟩, [])
      ∧ (∀ k' ∈ ks1,
          alLookup (ks1.foldl (fun bk k' => alErase bk (pfx ++ k')) b)
            (pfx ++ k') = none)
      ∧ (∀ q : String, q ∉ ks1.map (fun k' => pfx ++ k') →
          alLookup (ks1.foldl (fun bk k' => alErase bk (pfx ++ k')) b) q =
            alLookup b q) := by
  intro n w bucket pfx ks1 ks2 k b hb hnodup hks hpresent hk
  refine ⟨?_, alLookup_foldl_erase_mem pfx ks1 b hnodup hks,
    fun q hq => alLookup_foldl_erase_not_mem pfx ks1 b q hq⟩
  rw [dispatchFake_delete]
  have hloop := deleteKeysLoop_spec pfx ks1 k ks2 b hks hpresent hk
  simp [fakeAWSDeleteS3Keys, hb, hloop]

theorem C10_witness :
    (alLookup (FakeAWS.mk [] [("B", [("pa", [1]), ("pb", [2]), ("pc", [3])])]
        []).s3_buckets "B" = some [("pa", [1]), ("pb", [2]), ("pc", [3])]
      ∧ ([("pa", [1]), ("pb", [2]), ("pc", [3])].map
          (Prod.fst (α := String) (β := Bytes))).Nodup
      ∧ (["a"].map (fun k' => "p" ++ k')).Nodup
      ∧ (∀ k' ∈ ["a"],
          (alLookup [("pa", [1]), ("pb", [2]), ("pc", [3])]
            ("p" ++ k')).isSome = true)
      ∧ alLookup [("pa", [1]), ("pb", [2]), ("pc", [3])] ("p" ++ "x") = none)
    ∧ dispatchFake fake_dispatcher 1
        ⟨⟨[], [("B", [("pa", [1]), ("pb", [2]), ("pc", [3])])], []⟩, ⟨[]⟩⟩
        (.deleteS3Keys "B" "p" (["a"] ++ "x" :: ["c"])) =
      (.error .keyError,
       ⟨{ FakeAWS.mk [] [("B", [("pa", [1]), ("pb", [2]), ("pc", [3])])] []
            with s3_buckets := (alUpdate
              (FakeAWS.mk [] [("B", [("pa", [1]), ("pb", [2]), ("pc", [3])])]
                []).s3_buckets "B"
              (["a"].foldl (fun bk k' => alErase bk ("p" ++ k'))
                [("pa", [1]), ("pb", [2]), ("pc", [3])])) },
        ⟨[]⟩⟩, [])
    ∧ (∀ k' ∈ ["a"],
        alLookup (["a"].foldl (fun bk k' => alErase bk ("p" ++ k'))
          [("pa", [1]), ("pb", [2]), ("pc", [3])]) ("p" ++ k') = none)
    ∧ (∀ q : String, q ∉ ["a"].map (fun k' => "p" ++ k') →
        alLookup (["a"].foldl (fun bk k' => alErase bk ("p" ++ k'))
          [("pa", [1]), ("pb", [2]), ("pc", [3])]) q =
          alLookup [("pa", [1]), ("pb", [2]), ("pc", [3])] q) := by
  refine ⟨⟨rfl, by decide, by decide, by decide, rfl⟩, ?_⟩
  exact C10_fake_delete_partial_no_rollback 0
    ⟨⟨[], [("B", [("pa", [1]), ("pb", [2]), ("pc", [3])])], []⟩, ⟨[]⟩⟩
    "B" "p" ["a"] ["c"] "x" [("pa", [1]), ("pb", [2]), ("pc", [3])]
    rfl (by decide) (by decide) (by decide) rfl

/-- Claim C7: uploading a local file (any byte content, the empty string
included) to a bucket/key through the fake dispatcher and then dispatching
a download of that same bucket and key writes content byte-identical to
the original source file at the download target. -/
theorem C7_upload_download_roundtrip :
    ∀ (n m : Nat) (w : FakeWorld) (sp tb tk f tp : String) (c : Bytes)
      (b : List (String × Bytes)),
      w.fs.readFile f = some c →
      alLookup w.aws.s3_buckets tb = some b →
      ((dispatchFake fake_dispatcher (n + 1) w
          (.uploadToS3 sp tb tk f)).1 = .ok .pyNone)
      ∧ ((dispatchFake fake_dispatcher (m + 1)
            ((dispatchFake fake_dispatcher (n + 1) w
              (.uploadToS3 sp tb tk f)).2.1)
            (.downloadS3Key tb (tk ++ strDrop f (strLen sp)) tp)).1 =
          .ok .pyNone)
      ∧ ((dispatchFake fake_dispatcher (m + 1)
            ((dispatchFake fake_dispatcher (n + 1) w
              (.uploadToS3 sp tb tk f)).2.1)
            (.downloadS3Key tb (tk ++ strDrop f (strLen sp))
              tp)).2.1.fs.readFile tp = some c) := by
  intro n m w sp tb tk f tp c b hf hb
  have hup : fakeAWSUploadS3Key w.aws w.fs sp tb tk f =
      (.ok .pyNone,
       { w.aws with s3_buckets := (alUpdate w.aws.s3_buckets tb
           (alUpdate b (tk ++ strDrop f (strLen sp)) c)) }) := by
    simp [fakeAWSUploadS3Key, hb, hf]
  have hdown : fakeAWSDownloadS3Key
      ({ w.aws with s3_buckets := (alUpdate w.aws.s3_buckets tb
           (alUpdate b (tk ++ strDrop f (strLen sp)) c)) }) w.fs
      tb (tk ++ strDrop f (strLen sp)) tp =
      (.ok .pyNone, w.fs.setContent tp c) := by
    simp [fakeAWSDownloadS3Key, alLookup_alUpdate_self]
  refine ⟨?_, ?_, ?_⟩
  · rw [dispatchFake_upload, hup]
  · rw [dispatchFake_upload, hup]
    rw [dispatchFake_download]
    simp only [hdown]
  · rw [dispatchFake_upload, hup]
    rw [dispatchFake_download]
    simp only [hdown]
    exact readFile_setContent_self w.fs tp c

theorem C7_witness :
    (FS.mk [⟨"d/f.bin", .file []⟩]).readFile "d/f.bin" = some []
    ∧ alLookup (FakeAWS.mk [] [("B", [])] []).s3_buckets "B" = some []
    ∧ ((dispatchFake fake_dispatcher 1
          ⟨⟨[], [("B", [])], []⟩, ⟨[⟨"d/f.bin", .file []⟩]⟩⟩
          (.uploadToS3 "d" "B" "k" "d/f.bin")).1 = .ok .pyNone)
    ∧ ((dispatchFake fake_dispatcher 1
          ((dispatchFake fake_dispatcher 1
            ⟨⟨[], [("B", [])], []⟩, ⟨[⟨"d/f.bin", .file []⟩]⟩⟩
            (.uploadToS3 "d" "B" "k" "d/f.bin")).2.1)
          (.downloadS3Key "B" ("k" ++ strDrop "d/f.bin" (strLen "d"))
            "out")).2.1.fs.readFile "out" = some []) := by
  have h := C7_upload_download_roundtrip 0 0
    ⟨⟨[], [("B", [])], []⟩, ⟨[⟨"d/f.bin", .file []⟩]⟩⟩
    "d" "B" "k" "d/f.bin" "out" [] [] rfl rfl
  exact ⟨rfl, rfl, h.1, h.2.2⟩

/-! ## The recursive upload (claim C8) -/

theorem uploadRecLoop_spec (n : Nat) (sp tb tk : String)
    (files : List String) (aws0 : FakeAWS) (fs0 : FS) :
    ∀ (L : List FSEntry) (bk : List (String × Bytes)),
      (∀ e ∈ L, e ∈ fs0.entries) →
      (fs0.entries.map FSEntry.path).Nodup →
      uploadRecLoop (subDispatchOf fake_dispatcher (n + 1)) sp tb tk files L
          ⟨{ aws0 with s3_buckets := (alUpdate aws0.s3_buckets tb bk) },
           fs0⟩ =
        (.ok .pyNone,
         ⟨{ aws0 with s3_buckets := (alUpdate aws0.s3_buckets tb
              ((L.filter (fun e => files.contains (basename e.path)
                  && e.isFile)).foldl
                (fun bk' e => alUpdate bk'
                  (tk ++ strDrop e.path (strLen sp)) e.contentD) bk)) },
          fs0⟩,
         (L.filter (fun e => files.contains (basename e.path)
             && e.isFile)).map
           (fun e => Intent.uploadToS3 sp tb tk e.path)) := by
  intro L
  induction L with
  | nil => intro bk _ _; rfl
  | cons e rest ih =>
      intro bk hmem hnd
      have hmem' : ∀ x ∈ rest, x ∈ fs0.entries :=
        fun x hx => hmem x (List.mem_cons_of_mem e hx)
      by_cases hc : files.contains (basename e.path) = true
      · by_cases hfile : e.isFile = true
        · have hread : fs0.readFile e.path = some e.contentD :=
            readFile_of_mem_nodup (hmem e (List.mem_cons_self e rest))
              hnd hfile
          have hD : subDispatchOf fake_dispatcher (n + 1)
              ⟨{ aws0 with s3_buckets :=
                  (alUpdate aws0.s3_buckets tb bk) }, fs0⟩
              (.uploadToS3 sp tb tk e.path) =
              (.ok .pyNone,
               ⟨{ aws0 with s3_buckets := (alUpdate aws0.s3_buckets tb
                    (alUpdate bk (tk ++ strDrop e.path (strLen sp))
                      e.contentD)) }, fs0⟩) := by
            unfold subDispatchOf
            rw [dispatchFake_upload]
            have : fakeAWSUploadS3Key
                (FakeAWS.mk aws0.routing_rules
                  (alUpdate aws0.s3_buckets tb bk)
                  aws0.cloudfront_invalidations) fs0 sp tb tk e.path =
                (.ok .pyNone,
                 { aws0 with s3_buckets := (alUpdate aws0.s3_buckets tb
                     (alUpdate bk (tk ++ strDrop e.path (strLen sp))
                       e.contentD)) }) := by
              simp [fakeAWSUploadS3Key, alLookup_alUpdate_self, hread,
                alUpdate_alUpdate]
            simp only [this]
          have hcm : basename e.path ∈ files := by simpa using hc
          simp only [uploadRecLoop, if_pos hc, if_pos hfile, hD]
          rw [ih _ hmem' hnd]
          simp [List.filter_cons, hcm, hfile]
        · have hcm : basename e.path ∈ files := by simpa using hc
          simp only [uploadRecLoop, if_pos hc,
            if_neg (fun hh => hfile hh)]
          rw [ih _ hmem' hnd]
          simp [List.filter_cons, hcm, hfile]
      · have hcm : basename e.path ∉ files := by simpa using hc
        simp only [uploadRecLoop, if_neg (fun hh => hc hh)]
        rw [ih _ hmem' hnd]
        simp [List.filter_cons, hcm]

/-- Claim C8: performing the recursive upload through the fake dispatcher
dispatches one `UploadToS3` for exactly those walked paths that are
regular files whose base name belongs to the intent's file list (in walk
order; directories and non-matching names cause no dispatch and no
error), and the bucket ends up with each such file's bytes stored at key
`target_key ++ (path relative to source_path)` — the second conjunct pins
the single-upload key computation down. -/
theorem C8_upload_recursively_exact (n : Nat) (w : FakeWorld)
    (sp tb tk : String) (files : List String)
    (b : List (String × Bytes)) :
    alLookup w.aws.s3_buckets tb = some b →
    (w.fs.entries.map FSEntry.path).Nodup →
    (dispatchFake fake_dispatcher (n + 2) w
        (.uploadToS3Recursively sp tb tk files) =
      (.ok .pyNone,
       ⟨{ w.aws with s3_buckets := (alUpdate w.aws.s3_buckets tb
            (((w.fs.walk sp).filter (fun e => files.contains
                (basename e.path) && e.isFile)).foldl
              (fun bk' e => alUpdate bk'
                (tk ++ strDrop e.path (strLen sp)) e.contentD) b)) },
        w.fs⟩,
       ((w.fs.walk sp).filter (fun e => files.contains (basename e.path)
           && e.isFile)).map
         (fun e => Intent.uploadToS3 sp tb tk e.path)))
    ∧ (∀ (w' : FakeWorld) (f : String) (c : Bytes)
        (b' : List (String × Bytes)),
        w'.fs.readFile f = some c →
        alLookup w'.aws.s3_buckets tb = some b' →
        dispatchFake fake_dispatcher (n + 1) w' (.uploadToS3 sp tb tk f) =
          (.ok .pyNone,
           ⟨{ w'.aws with s3_buckets := (alUpdate w'.aws.s3_buckets tb
                (alUpdate b' (tk ++ strDrop f (strLen sp)) c)) },
            w'.fs⟩, [])) := by
  intro hb hnd
  constructor
  · rw [dispatchFake_uploadRec]
    have h := uploadRecLoop_spec n sp tb tk files w.aws w.fs
      (w.fs.walk sp) b (fun e he => mem_entries_of_mem_walk he) hnd
    rw [alUpdate_self hb] at h
    exact h
  · intro w' f c b' hf hb'
    rw [dispatchFake_upload]
    have : fakeAWSUploadS3Key w'.aws w'.fs sp tb tk f =
        (.ok .pyNone,
         { w'.aws with s3_buckets := (alUpdate w'.aws.s3_buckets tb
             (alUpdate b' (tk ++ strDrop f (strLen sp)) c)) }) := by
      simp [fakeAWSUploadS3Key, hb', hf]
    rw [this]

theorem C8_witness :
    (alLookup (FakeAWS.mk [] [("B", [])] []).s3_buckets "B" = some []
      ∧ ((FS.mk [⟨"src", .dir⟩, ⟨"src/a.txt", .file [9]⟩,
          ⟨"src/c.log", .file [8]⟩,
          ⟨"src/b.txt", .file [7]⟩]).entries.map FSEntry.path).Nodup)
    ∧ dispatchFake fake_dispatcher 2
        ⟨⟨[], [("B", [])], []⟩,
         ⟨[⟨"src", .dir⟩, ⟨"src/a.txt", .file [9]⟩,
           ⟨"src/c.log", .file [8]⟩, ⟨"src/b.txt", .file [7]⟩]⟩⟩
        (.uploadToS3Recursively "src" "B" "k/" ["a.txt", "c.log"]) =
      (.ok .pyNone,
       ⟨FakeAWS.mk []
          (alUpdate (FakeAWS.mk [] [("B", [])] []).s3_buckets "B"
            ((((FS.mk [⟨"src", .dir⟩, ⟨"src/a.txt", .file [9]⟩,
                ⟨"src/c.log", .file [8]⟩, ⟨"src/b.txt", .file [7]⟩]).walk
                "src").filter (fun e => ["a.txt", "c.log"].contains
                  (basename e.path) && e.isFile)).foldl
              (fun bk' e => alUpdate bk'
                ("k/" ++ strDrop e.path (strLen "src")) e.contentD) []))
          [],
        ⟨[⟨"src", .dir⟩, ⟨"src/a.txt", .file [9]⟩,
          ⟨"src/c.log", .file [8]⟩, ⟨"src/b.txt", .file [7]⟩]⟩⟩,
       ((((FS.mk [⟨"src", .dir⟩, ⟨"src/a.txt", .file [9]⟩,
           ⟨"src/c.log", .file [8]⟩, ⟨"src/b.txt", .file [7]⟩]).walk
           "src").filter (fun e => ["a.txt", "c.log"].contains
             (basename e.path) && e.isFile)).map
         (fun e => Intent.uploadToS3 "src" "B" "k/" e.path))) :=
  ⟨⟨rfl, by decide⟩,
   (C8_upload_recursively_exact 0
     ⟨⟨[], [("B", [])], []⟩,
      ⟨[⟨"src", .dir⟩, ⟨"src/a.txt", .file [9]⟩,
        ⟨"src/c.log", .file [8]⟩, ⟨"src/b.txt", .file [7]⟩]⟩⟩
     "src" "B" "k/" ["a.txt", "c.log"] [] rfl (by decide)).1⟩

/-! ## The recursive download (claim C9) -/

theorem pathExists_foldl_mono (g : FS → String → FS)
    (hmono : ∀ (fsA : FS) (k q : String),
      fsA.pathExists q = true → (g fsA k).pathExists q = true) :
    ∀ (K : List String) (fsA : FS) (q : String),
      fsA.pathExists q = true → ((K.foldl g fsA).pathExists q) = true := by
  intro K
  induction K with
  | nil => intro fsA q h; exact h
  | cons k0 K ih =>
      intro fsA q h
      rw [List.foldl_cons]
      exact ih _ q (hmono fsA k0 q h)

theorem pathExists_foldl_parent (g : FS → String → FS)
    (par : String → String)
    (hmono : ∀ (fsA : FS) (k q : String),
      fsA.pathExists q = true → (g fsA k).pathExists q = true)
    (hself : ∀ (fsA : FS) (k : String),
      (g fsA k).pathExists (par k) = true) :
    ∀ (K : List String) (fsA : FS) (key : String), key ∈ K →
      ((K.foldl g fsA).pathExists (par key)) = true := by
  intro K
  induction K with
  | nil => intro fsA key hk; simp at hk
  | cons k0 K ih =>
      intro fsA key hk
      rw [List.foldl_cons]
      rcases List.mem_cons.mp hk with rfl | hk'
      · exact pathExists_foldl_mono g hmono K _ _ (hself fsA key)
      · exact ih _ key hk'

theorem downloadRecLoop_spec (n : Nat) (sb sp tp : String)
    (exts : List String) (aws0 : FakeAWS) (b : List (String × Bytes))
    (hb : alLookup aws0.s3_buckets sb = some b) :
    ∀ (K : List String) (fsA : FS),
      (∀ key ∈ K, (exts.any fun ext => strEndsWith key ext) = true →
        (alLookup b (osPathJoin sp key)).isSome = true) →
      downloadRecLoop (subDispatchOf fake_dispatcher (n + 1)) sb sp tp exts
          K ⟨aws0, fsA⟩ =
        (.ok .pyNone,
         ⟨aws0,
          (K.filter (fun key => exts.any fun ext =>
              strEndsWith key ext)).foldl
            (fun fsB key =>
              ((if fsB.pathExists (parentPath (tp ++ "/" ++ key)) then fsB
                else
                  fsB.makedirs (parentPath (tp ++ "/" ++ key))).setContent
                (tp ++ "/" ++ key)
                ((alLookup b (osPathJoin sp key)).getD []))) fsA⟩,
         (K.filter (fun key => exts.any fun ext =>
             strEndsWith key ext)).map
           (fun key => Intent.downloadS3Key sb (osPathJoin sp key)
             (tp ++ "/" ++ key))) := by
  intro K
  induction K with
  | nil => intro fsA _; rfl
  | cons key rest ih =>
      intro fsA hpres
      have hpres' : ∀ k ∈ rest,
          (exts.any fun ext => strEndsWith k ext) = true →
          (alLookup b (osPathJoin sp k)).isSome = true :=
        fun k hk => hpres k (List.mem_cons_of_mem key hk)
      by_cases hext : (exts.any fun ext => strEndsWith key ext) = true
      · obtain ⟨c, hc⟩ := Option.isSome_iff_exists.mp
          (hpres key (List.mem_cons_self key rest) hext)
        by_cases hpe : fsA.pathExists (parentPath (tp ++ "/" ++ key)) = true
        · have hD : subDispatchOf fake_dispatcher (n + 1) ⟨aws0, fsA⟩
              (.downloadS3Key sb (osPathJoin sp key) (tp ++ "/" ++ key)) =
              (.ok .pyNone,
               ⟨aws0, fsA.setContent (tp ++ "/" ++ key) c⟩) := by
            unfold subDispatchOf
            rw [dispatchFake_download]
            simp [fakeAWSDownloadS3Key, hb, hc]
          simp only [downloadRecLoop, if_pos hext, if_pos hpe, hD]
          rw [ih _ hpres']
          simp [List.filter_cons, hext, if_pos hpe, hc]
        · have hD : subDispatchOf fake_dispatcher (n + 1)
              ⟨aws0, fsA.makedirs (parentPath (tp ++ "/" ++ key))⟩
              (.downloadS3Key sb (osPathJoin sp key) (tp ++ "/" ++ key)) =
              (.ok .pyNone,
               ⟨aws0, (fsA.makedirs
                 (parentPath (tp ++ "/" ++ key))).setContent
                   (tp ++ "/" ++ key) c⟩) := by
            unfold subDispatchOf
            rw [dispatchFake_download]
            simp [fakeAWSDownloadS3Key, hb, hc]
          simp only [downloadRecLoop, if_pos hext, if_neg hpe, hD]
          rw [ih _ hpres']
          simp [List.filter_cons, hext, if_neg hpe, hc]
      · simp only [downloadRecLoop, if_neg hext]
        rw [ih _ hpres']
        simp [List.filter_cons, hext]

/-- Claim C9: the composite download performer first dispatches one
`ListS3Keys` for `source_pfx ++ "/"` on the source bucket; then, for
exactly those returned relative keys ending in one of the filter
extensions (in the order of the returned set), it ensures the parent
directory of `target_path/key` exists — creating it recursively when
missing — and dispatches one `DownloadS3Key` from
`os.path.join(source_pfx, key)` to `target_path/key`; non-matching keys
produce no download and no error, and the second conjunct shows the
parent directory of every downloaded target exists afterwards. -/
theorem C9_download_recursively_exact :
    ∀ (n : Nat) (w : FakeWorld) (sb sp tp : String) (exts : List String)
      (b : List (String × Bytes)) (names matched : List String),
      alLookup w.aws.s3_buckets sb = some b →
      names = pyDedup (((b.map Prod.fst).filter
        (fun k => strStartsWith k (sp ++ "/"))).map
          (fun k => strDrop k (strLen (sp ++ "/")))) →
      matched = names.filter (fun key => exts.any fun ext =>
        strEndsWith key ext) →
      (∀ key ∈ matched, (alLookup b (osPathJoin sp key)).isSome = true) →
      (dispatchFake fake_dispatcher (n + 2) w
          (.downloadS3KeyRecursively sb sp tp exts) =
        (.ok .pyNone,
         ⟨w.aws,
          matched.foldl
            (fun fsB key =>
              ((if fsB.pathExists (parentPath (tp ++ "/" ++ key)) then fsB
                else
                  fsB.makedirs (parentPath (tp ++ "/" ++ key))).setContent
                (tp ++ "/" ++ key)
                ((alLookup b (osPathJoin sp key)).getD []))) w.fs⟩,
         Intent.listS3Keys sb (sp ++ "/") ::
           matched.map (fun key => Intent.downloadS3Key sb
             (osPathJoin sp key) (tp ++ "/" ++ key))))
      ∧ (∀ key ∈ matched,
          ((matched.foldl
            (fun fsB key =>
              ((if fsB.pathExists (parentPath (tp ++ "/" ++ key)) then fsB
                else
                  fsB.makedirs (parentPath (tp ++ "/" ++ key))).setContent
                (tp ++ "/" ++ key)
                ((alLookup b (osPathJoin sp key)).getD []))) w.fs).pathExists
            (parentPath (tp ++ "/" ++ key))) = true) := by
  intro n w sb sp tp exts b names matched hb hnames hmatched hpres
  have hmono : ∀ (fsA : FS) (k q : String), fsA.pathExists q = true →
      (((if fsA.pathExists (parentPath (tp ++ "/" ++ k)) then fsA
         else fsA.makedirs (parentPath (tp ++ "/" ++ k))).setContent
        (tp ++ "/" ++ k)
        ((alLookup b (osPathJoin sp k)).getD [])).pathExists q) = true := by
    intro fsA k q hq
    by_cases hpe : fsA.pathExists (parentPath (tp ++ "/" ++ k)) = true
    · rw [if_pos hpe]
      exact pathExists_setContent _ _ _ _ hq
    · rw [if_neg hpe]
      exact pathExists_setContent _ _ _ _
        (pathExists_makedirs_mono _ _ _ hq)
  have hself : ∀ (fsA : FS) (k : String),
      (((if fsA.pathExists (parentPath (tp ++ "/" ++ k)) then fsA
         else fsA.makedirs (parentPath (tp ++ "/" ++ k))).setContent
        (tp ++ "/" ++ k)
        ((alLookup b (osPathJoin sp k)).getD [])).pathExists
        (parentPath (tp ++ "/" ++ k))) = true := by
    intro fsA k
    by_cases hpe : fsA.pathExists (parentPath (tp ++ "/" ++ k)) = true
    · rw [if_pos hpe]
      exact pathExists_setContent _ _ _ _ hpe
    · rw [if_neg hpe]
      exact pathExists_setContent _ _ _ _
        (pathExists_makedirs_self _ _)
  constructor
  · rw [dispatchFake_downloadRec]
    have hlist : subDispatchOf fake_dispatcher (n + 1) w
        (.listS3Keys sb (sp ++ "/")) = (.ok (.pySet names), w) := by
      unfold subDispatchOf
      rw [dispatchFake_list]
      simp [fakeAWSListS3Keys, hb, hnames]
    simp only [perform_download_s3_key_recursively, hlist]
    have hloop := downloadRecLoop_spec n sb sp tp exts w.aws b hb names w.fs
      (fun key hk hext => hpres key (by
        rw [hmatched]
        exact List.mem_filter.mpr ⟨hk, hext⟩))
    rw [← hmatched] at hloop
    rw [hloop]
  · intro key hk
    exact pathExists_foldl_parent _
      (fun key => parentPath (tp ++ "/" ++ key)) hmono hself matched w.fs
      key hk

theorem C9_witness :
    (alLookup (FakeAWS.mk []
        [("B", [("foo/x.json", [1]), ("foo/y.txt", [2])])] []).s3_buckets
        "B" = some [("foo/x.json", [1]), ("foo/y.txt", [2])]
      ∧ ["x.json", "y.txt"] = pyDedup ((([("foo/x.json", ([1] : Bytes)),
          ("foo/y.txt", [2])].map Prod.fst).filter
            (fun k => strStartsWith k ("foo" ++ "/"))).map
              (fun k => strDrop k (strLen ("foo" ++ "/"))))
      ∧ ["x.json"] = ["x.json", "y.txt"].filter
          (fun key => [".json"].any fun ext => strEndsWith key ext)
      ∧ (∀ key ∈ ["x.json"],
          (alLookup [("foo/x.json", ([1] : Bytes)), ("foo/y.txt", [2])]
            (osPathJoin "foo" key)).isSome = true))
    ∧ dispatchFake fake_dispatcher 2
        ⟨⟨[], [("B", [("foo/x.json", [1]), ("foo/y.txt", [2])])], []⟩, ⟨[]⟩⟩
        (.downloadS3KeyRecursively "B" "foo" "tgt" [".json"]) =
      (.ok .pyNone,
       ⟨FakeAWS.mk [] [("B", [("foo/x.json", [1]), ("foo/y.txt", [2])])] [],
        (["x.json"].foldl
          (fun fsB key =>
            ((if fsB.pathExists (parentPath ("tgt" ++ "/" ++ key)) then fsB
              else
                fsB.makedirs (parentPath ("tgt" ++ "/" ++ key))).setContent
              ("tgt" ++ "/" ++ key)
              ((alLookup [("foo/x.json", ([1] : Bytes)), ("foo/y.txt", [2])]
                (osPathJoin "foo" key)).getD []))) ⟨[]⟩)⟩,
       Intent.listS3Keys "B" ("foo" ++ "/") ::
         ["x.json"].map (fun key => Intent.downloadS3Key "B"
           (osPathJoin "foo" key) ("tgt" ++ "/" ++ key))) :=
  ⟨⟨rfl, by decide, by decide, by decide⟩,
   (C9_download_recursively_exact 0
     ⟨⟨[], [("B", [("foo/x.json", [1]), ("foo/y.txt", [2])])], []⟩, ⟨[]⟩⟩
     "B" "foo" "tgt" [".json"]
     [("foo/x.json", [1]), ("foo/y.txt", [2])]
     ["x.json", "y.txt"] ["x.json"]
     rfl (by decide) (by decide) (by decide)).1⟩
